import Mathlib

/-!
Verification of the GeoJoin Colorizer pipeline of the StreamlitGeo
repository: the join stage, the color-scale stage, the centroid
computation and the navigation session state, embedded shallowly from the
Python sources (stream.py, stream1.py, stream2.py, stream3.py,
stream_app.py, stream_app1.py).
-/

namespace StreamlitGeo

/-- Coordinate pair as stored in a GeoJSON ring: component 0 is the
longitude, component 1 the latitude (`c[0]`, `c[1]` in the sources). -/
abbrev Coord := ℚ × ℚ

/-- One tabular row of the parsed Census response: the composite
geographic identifier built by `df['GEOID'] = ...` and the numeric
measurement column `df[variable]` after
`pd.to_numeric(...).fillna(0)`. -/
structure TabRow where
  geoid : String
  value : ℚ
deriving DecidableEq

/-- Geometry payload of a feature, as branched on in the centroid loop
(`geom["type"] == "Polygon"` / `"MultiPolygon"` / anything else). A
polygon carries its list of rings (`geom["coordinates"]`), a
multi-polygon its list of polygons, each a list of rings. -/
inductive Geometry where
  | polygon (rings : List (List Coord))
  | multiPolygon (polys : List (List (List Coord)))
  | other
deriving DecidableEq

/-- Geometry feature. The field `geoid` models
`feature["properties"]["GEOID"]`: it is `none` when the `GEOID` key is
absent from the properties mapping, in which case the Python subscript
raises `KeyError`. -/
structure GeoFeature where
  geoid : Option String
  geometry : Geometry
deriving DecidableEq

/-- Geometry feature after the join stage: the original feature plus the
attached measurement (`properties[variable]`) and, once the color stage
has run, the attached color (`properties["fill_color"]`). -/
structure JoinedFeature where
  feature : GeoFeature
  value : ℚ
  fill : Option (ℤ × ℤ × ℤ)
deriving DecidableEq

/-- Embedding of `row = df.loc[df["GEOID"] == geoid]` followed by
`val = row[variable].values[0]` when `not row.empty`, else `0`
(stream1.py lines 191-197): filter the rows whose identifier equals `g`
(a boolean-mask `df.loc` preserves input order) and take the measurement
of the first match, or `0` when there is no match. -/
def lookupVal (rows : List TabRow) (g : String) : ℚ :=
  match rows.filter (fun r => r.geoid == g) with
  | [] => 0
  | r :: _ => r.value

/-- Body of the join loop for one feature (stream1.py lines 189-197):
read `feature["properties"]["GEOID"]` (`none` propagates the `KeyError`)
and attach the looked-up value to the feature. -/
def joinFeature (rows : List TabRow) (f : GeoFeature) : Option JoinedFeature :=
  match f.geoid with
  | none => none
  | some g => some { feature := f, value := lookupVal rows g, fill := none }

/-- Join stage (stream1.py lines 189-197, stream2.py lines 103-111): run
`joinFeature` over every feature in order; a feature with a missing
identifier aborts the whole invocation, exactly as the uncaught
`KeyError` does. -/
def joinStage (rows : List TabRow) : List GeoFeature → Option (List JoinedFeature)
  | [] => some []
  | f :: fs =>
    match joinFeature rows f, joinStage rows fs with
    | some jf, some rest => some (jf :: rest)
    | _, _ => none

/-- Embedding of Python `min` over a list of numbers; `none` models the
`ValueError` raised on an empty list. -/
def listMin : List ℚ → Option ℚ
  | [] => none
  | x :: xs =>
    match listMin xs with
    | none => some x
    | some m => some (min x m)

/-- Embedding of Python `max` over a list of numbers; `none` models the
`ValueError` raised on an empty list. -/
def listMax : List ℚ → Option ℚ
  | [] => none
  | x :: xs =>
    match listMax xs with
    | none => some x
    | some m => some (max x m)

/-- Embedding of `min_val, max_val = min(vals), max(vals) if vals else
(0, 1)` (stream.py line 106, stream1.py line 201, stream_app.py line
131). By Python operator precedence the conditional expression applies
to `max_val` only, so `min(vals)` is evaluated unconditionally and
raises `ValueError` on an empty list: the result is `none` exactly when
`vals` is empty, and the pair of extrema otherwise. -/
def boundsChained (vals : List ℚ) : Option (ℚ × ℚ) :=
  match listMin vals, listMax vals with
  | some mn, some mx => some (mn, mx)
  | _, _ => none

/-- Embedding of the checked bounds computation (stream2.py lines
120-124, stream3.py lines 108-111): `if not vals: min_val, max_val = 0,
1 else: min_val, max_val = min(vals), max(vals)`. The fallback branch of
the match is taken exactly when `vals` is empty, since `listMin` and
`listMax` return `some` on every non-empty list. -/
def boundsChecked (vals : List ℚ) : ℚ × ℚ :=
  match listMin vals, listMax vals with
  | some mn, some mx => (mn, mx)
  | _, _ => (0, 1)

/-- Python `int()` applied to a rational: truncation toward zero. -/
def pyint (q : ℚ) : ℤ := if 0 ≤ q then ⌊q⌋ else ⌈q⌉

/-- Ratio computed inside every `color_scale` variant: `0` if
`max_val == min_val`, else `(val - min_val) / (max_val - min_val)`. -/
def ratioVal (mn mx v : ℚ) : ℚ :=
  if mx = mn then 0 else (v - mn) / (mx - mn)

/-- Embedding of `color_scale` from stream1.py lines 203-211 (identical
in stream2.py, stream3.py and stream_app.py): `r = int(255 * ratio)`,
`g = int(255 * (1 - ratio))`, `b = 0`. -/
def colorScaleRG (mn mx v : ℚ) : ℤ × ℤ × ℤ :=
  (pyint (255 * ratioVal mn mx v), pyint (255 * (1 - ratioVal mn mx v)), 0)

/-- Embedding of `color_scale` from stream.py lines 108-116:
`r = int(255 * (1 - ratio))`, `g = int(255 * ratio)`,
`b = int(255 * (1 - ratio))`. -/
def colorScaleGRB (mn mx v : ℚ) : ℤ × ℤ × ℤ :=
  (pyint (255 * (1 - ratioVal mn mx v)), pyint (255 * ratioVal mn mx v),
    pyint (255 * (1 - ratioVal mn mx v)))

/-- Color stage (stream2.py lines 113-141): collect the attached values
(after the join every feature carries one, so the `is not None` filter
keeps all of them), compute the bounds with the checked variant, and
overwrite each feature's `fill_color` with `color_scale` of its attached
value. -/
def colorStage (feats : List JoinedFeature) : List JoinedFeature :=
  let vals := feats.map (fun f => f.value)
  let b := boundsChecked vals
  feats.map (fun f => { f with fill := some (colorScaleRG b.1 b.2 f.value) })

/-- Ring used for the centroid of one feature (stream1.py lines
226-233): the outer ring `coordinates[0]` of a polygon, the first ring
of the first polygon `coordinates[0][0]` of a multi-polygon, `[]` for
any other geometry type; `none` models the `IndexError` raised when an
indexed list is empty. -/
def usedRing : Geometry → Option (List Coord)
  | Geometry.polygon rings => rings.head?
  | Geometry.multiPolygon polys => polys.head?.bind List.head?
  | Geometry.other => some []

/-- Coordinate-collection loop of the centroid computation (stream1.py
lines 222-236): the used rings of all features, concatenated in input
order. -/
def collectCoords : List GeoFeature → Option (List Coord)
  | [] => some []
  | f :: fs =>
    match usedRing f.geometry, collectCoords fs with
    | some c, some rest => some (c ++ rest)
    | _, _ => none

/-- Centroid computation (stream1.py lines 221-243, stream2.py lines
146-168): the arithmetic means of the collected longitudes and
latitudes, falling back to the fixed Rhode Island center
`(-71.5, 41.7)` when the feature collection is empty or no coordinates
were collected. -/
def centroid (feats : List GeoFeature) : Option Coord :=
  if feats.isEmpty then some (-71.5, 41.7)
  else
    match collectCoords feats with
    | none => none
    | some cs =>
      if cs.isEmpty then some (-71.5, 41.7)
      else some ((cs.map Prod.fst).sum / (cs.length : ℚ),
        (cs.map Prod.snd).sum / (cs.length : ℚ))

/-- A navigation button click in stream_app1.py. -/
inductive NavAction where
  | prev
  | next
deriving DecidableEq

/-- One rerun of the navigation handler of stream_app1.py lines 119-128:
with `prev_disabled = current_index <= 0` and `next_disabled =
current_index >= len(coordinates) - 1`, a Previous click decrements the
index only when enabled and a Next click increments it only when
enabled. `n` is `len(coordinates)`. -/
def navStep (n : ℕ) (i : ℤ) : NavAction → ℤ
  | NavAction.prev => if 0 < i then i - 1 else i
  | NavAction.next => if i < (n : ℤ) - 1 then i + 1 else i

/-- Session index `st.session_state.current_index` after a sequence of
clicks, starting from the initial value 0 (stream_app1.py lines
105-106). -/
def navRun (n : ℕ) (acts : List NavAction) : ℤ :=
  acts.foldl (navStep n) 0

/-- Predicate stating that each channel of an RGB triple is an integer in
the range [0, 255]. -/
def channelsInRange (c : ℤ × ℤ × ℤ) : Prop :=
  (0 ≤ c.1 ∧ c.1 ≤ 255) ∧ (0 ≤ c.2.1 ∧ c.2.1 ≤ 255) ∧ (0 ≤ c.2.2 ∧ c.2.2 ≤ 255)

/-! Helper lemmas about the embedded operations. -/

theorem listMin_le_mem : ∀ (l : List ℚ) (m : ℚ), listMin l = some m →
    ∀ v ∈ l, m ≤ v := by
  intro l
  induction l with
  | nil => intro m h v hv; cases hv
  | cons x xs ih =>
    intro m h v hv
    rcases List.mem_cons.mp hv with rfl | hv2
    · cases hx : listMin xs with
      | none =>
        simp only [listMin, hx, Option.some.injEq] at h
        exact le_of_eq h.symm
      | some m0 =>
        simp only [listMin, hx, Option.some.injEq] at h
        rw [← h]
        exact min_le_left _ _
    · cases hx : listMin xs with
      | none =>
        exfalso
        cases xs with
        | nil => cases hv2
        | cons y ys => cases hys : listMin ys <;> simp [listMin, hys] at hx
      | some m0 =>
        simp only [listMin, hx, Option.some.injEq] at h
        exact h ▸ le_trans (min_le_right x m0) (ih m0 hx v hv2)

theorem listMax_mem_le : ∀ (l : List ℚ) (m : ℚ), listMax l = some m →
    ∀ v ∈ l, v ≤ m := by
  intro l
  induction l with
  | nil => intro m h v hv; cases hv
  | cons x xs ih =>
    intro m h v hv
    rcases List.mem_cons.mp hv with rfl | hv2
    · cases hx : listMax xs with
      | none =>
        simp only [listMax, hx, Option.some.injEq] at h
        exact le_of_eq h
      | some m0 =>
        simp only [listMax, hx, Option.some.injEq] at h
        rw [← h]
        exact le_max_left _ _
    · cases hx : listMax xs with
      | none =>
        exfalso
        cases xs with
        | nil => cases hv2
        | cons y ys => cases hys : listMax ys <;> simp [listMax, hys] at hx
      | some m0 =>
        simp only [listMax, hx, Option.some.injEq] at h
        exact h ▸ le_trans (ih m0 hx v hv2) (le_max_right x m0)

theorem ratioVal_mem_unit {mn mx v : ℚ} (h1 : mn ≤ v) (h2 : v ≤ mx) :
    0 ≤ ratioVal mn mx v ∧ ratioVal mn mx v ≤ 1 := by
  unfold ratioVal
  by_cases hc : mx = mn
  · simp [hc]
  · rw [if_neg hc]
    have hlt : mn < mx := lt_of_le_of_ne (h1.trans h2) (fun e => hc e.symm)
    constructor
    · exact div_nonneg (by linarith) (by linarith)
    · rw [div_le_one (by linarith)]
      linarith

theorem pyint_range {q : ℚ} (h0 : 0 ≤ q) (h1 : q ≤ 255) :
    0 ≤ pyint q ∧ pyint q ≤ 255 := by
  unfold pyint
  rw [if_pos h0]
  refine ⟨Int.floor_nonneg.mpr h0, ?_⟩
  have h2 : ⌊q⌋ ≤ ⌊(255 : ℚ)⌋ := Int.floor_le_floor h1
  simpa using h2

theorem pyint_mono {a b : ℚ} (h : a ≤ b) : pyint a ≤ pyint b := by
  unfold pyint
  by_cases ha : 0 ≤ a
  · rw [if_pos ha, if_pos (ha.trans h)]
    exact Int.floor_le_floor h
  · rw [if_neg ha]
    by_cases hb : 0 ≤ b
    · rw [if_pos hb]
      have hc : ⌈a⌉ ≤ 0 := Int.ceil_le.mpr (by exact_mod_cast le_of_not_le ha)
      have hf : (0 : ℤ) ≤ ⌊b⌋ := Int.floor_nonneg.mpr hb
      omega
    · rw [if_neg hb]
      exact Int.ceil_le_ceil h

theorem lookupVal_eq_zero (rows : List TabRow) (g : String)
    (h : ∀ r ∈ rows, r.geoid ≠ g) : lookupVal rows g = 0 := by
  have hfil : rows.filter (fun r => r.geoid == g) = [] := by
    rw [List.filter_eq_nil_iff]
    intro a ha
    simpa using h a ha
  simp [lookupVal, hfil]

theorem joinStage_get (rows : List TabRow) :
    ∀ (feats : List GeoFeature) (out : List JoinedFeature),
      joinStage rows feats = some out →
      ∀ (i : ℕ) (hi : i < feats.length),
        ∃ hi2 : i < out.length,
          joinFeature rows (feats.get ⟨i, hi⟩) = some (out.get ⟨i, hi2⟩) := by
  intro feats
  induction feats with
  | nil => intro out h i hi; exact absurd hi (by simp)
  | cons f fs ih =>
    intro out h i hi
    cases hjf : joinFeature rows f with
    | none => simp [joinStage, hjf] at h
    | some jf =>
      cases hjs : joinStage rows fs with
      | none => simp [joinStage, hjf, hjs] at h
      | some rest =>
        simp only [joinStage, hjf, hjs, Option.some.injEq] at h
        subst h
        cases i with
        | zero => exact ⟨Nat.succ_pos _, hjf⟩
        | succ j =>
          have hj : j < fs.length := Nat.lt_of_succ_lt_succ hi
          obtain ⟨hj2, heq⟩ := ih rest hjs j hj
          exact ⟨Nat.succ_lt_succ hj2, heq⟩

theorem joinStage_some_of_wf (rows : List TabRow) :
    ∀ feats : List GeoFeature, (∀ f ∈ feats, f.geoid ≠ none) →
      ∃ out, joinStage rows feats = some out ∧ out.length = feats.length := by
  intro feats
  induction feats with
  | nil => intro _; exact ⟨[], rfl, rfl⟩
  | cons f fs ih =>
    intro hwf
    obtain ⟨out, hout, hlen⟩ := ih (fun x hx => hwf x (List.mem_cons_of_mem f hx))
    have hf : f.geoid ≠ none := hwf f (List.mem_cons_self f fs)
    cases hg : f.geoid with
    | none => exact absurd hg hf
    | some g =>
      refine ⟨⟨f, lookupVal rows g, none⟩ :: out, ?_, by simp [hlen]⟩
      simp [joinStage, joinFeature, hg, hout]

theorem colorStage_eq (feats : List JoinedFeature) :
    colorStage feats = List.map (fun f =>
      { feature := f.feature, value := f.value,
        fill := some (colorScaleRG
          (boundsChecked (List.map (fun f => f.value) feats)).1
          (boundsChecked (List.map (fun f => f.value) feats)).2
          f.value) }) feats := rfl

theorem navRun_bounds_aux (n : ℕ) :
    ∀ (acts : List NavAction) (i : ℤ), 0 ≤ i → i < (n : ℤ) →
      0 ≤ acts.foldl (navStep n) i ∧ acts.foldl (navStep n) i < (n : ℤ) := by
  intro acts
  induction acts with
  | nil => intro i h0 h1; exact ⟨h0, h1⟩
  | cons a as ih =>
    intro i h0 h1
    have hstep : 0 ≤ navStep n i a ∧ navStep n i a < (n : ℤ) := by
      cases a <;> simp only [navStep] <;> split <;> omega
    simpa using ih (navStep n i a) hstep.1 hstep.2

/-! Claim theorems. -/

/-- C1 (counterexample): with two tabular rows sharing the identifier A,
holding the values 10 and then 20, the join attaches 10 — the value of
the first matching row in input order — and not 20, the value of the
last one, refuting the last-wins part of the claim. -/
theorem claim1_counterexample :
    joinFeature [⟨"A", 10⟩, ⟨"A", 20⟩] ⟨some "A", Geometry.other⟩ =
      some ⟨⟨some "A", Geometry.other⟩, 10, none⟩ ∧
    joinFeature [⟨"A", 10⟩, ⟨"A", 20⟩] ⟨some "A", Geometry.other⟩ ≠
      some ⟨⟨some "A", Geometry.other⟩, 20, none⟩ := by
  refine ⟨rfl, ?_⟩
  intro h
  simp [joinFeature, lookupVal] at h

/-- C1 (amended): for every geometry feature whose identifier matches at
least one tabular row, the join stage attaches the measurement value of
the FIRST such row encountered in the input order. -/
theorem claim1_join_attaches_first_match (rows : List TabRow)
    (feats : List GeoFeature) (out : List JoinedFeature)
    (h : joinStage rows feats = some out) (i : ℕ) (hi : i < feats.length)
    (g : String) (r : TabRow) (rest : List TabRow)
    (hg : (feats.get ⟨i, hi⟩).geoid = some g)
    (hfil : rows.filter (fun x => x.geoid == g) = r :: rest) :
    ∃ hi2 : i < out.length, (out.get ⟨i, hi2⟩).value = r.value := by
  obtain ⟨hi2, heq⟩ := joinStage_get rows feats out h i hi
  simp only [joinFeature, hg, Option.some.injEq] at heq
  refine ⟨hi2, ?_⟩
  rw [← heq]
  simp [lookupVal, hfil]

/-- C1 (witness): the amended theorem applied to one feature with
identifier A and the duplicate rows (A, 10), (A, 20), attaching 10. -/
theorem claim1_witness :
    ∃ hi2 : 0 < [JoinedFeature.mk ⟨some "A", Geometry.other⟩ 10 none].length,
      ([JoinedFeature.mk ⟨some "A", Geometry.other⟩ 10 none].get
        ⟨0, hi2⟩).value = (TabRow.mk "A" 10).value :=
  claim1_join_attaches_first_match [⟨"A", 10⟩, ⟨"A", 20⟩]
    [⟨some "A", Geometry.other⟩] [⟨⟨some "A", Geometry.other⟩, 10, none⟩]
    rfl 0 (by decide) "A" ⟨"A", 10⟩ [⟨"A", 20⟩] rfl rfl

/-- C2 (confirmed): when every geometry feature carries its identifier,
the join stage succeeds, keeps every feature (same length, same order),
and a feature whose identifier matches no tabular row gets the default
value 0 attached. -/
theorem claim2_unmatched_gets_zero (rows : List TabRow)
    (feats : List GeoFeature) (hwf : ∀ f ∈ feats, f.geoid ≠ none) :
    ∃ out, joinStage rows feats = some out ∧ out.length = feats.length ∧
      ∀ (i : ℕ) (hi : i < feats.length) (hi2 : i < out.length) (g : String),
        (feats.get ⟨i, hi⟩).geoid = some g →
        (∀ r ∈ rows, r.geoid ≠ g) →
        out.get ⟨i, hi2⟩ = ⟨feats.get ⟨i, hi⟩, 0, none⟩ := by
  obtain ⟨out, hout, hlen⟩ := joinStage_some_of_wf rows feats hwf
  refine ⟨out, hout, hlen, ?_⟩
  intro i hi hi2 g hg hnom
  obtain ⟨hi3, heq⟩ := joinStage_get rows feats out hout i hi
  simp only [joinFeature, hg, Option.some.injEq] at heq
  have hsame : out.get ⟨i, hi2⟩ = out.get ⟨i, hi3⟩ := rfl
  rw [hsame, ← heq, lookupVal_eq_zero rows g hnom]

/-- C2 (witness): the theorem applied to one well-formed feature with
identifier A and a single non-matching row keyed B. -/
theorem claim2_witness :
    ∃ out, joinStage [⟨"B", 5⟩] [⟨some "A", Geometry.other⟩] = some out ∧
      out.length = [GeoFeature.mk (some "A") Geometry.other].length ∧
      ∀ (i : ℕ) (hi : i < [GeoFeature.mk (some "A") Geometry.other].length)
        (hi2 : i < out.length) (g : String),
        ([GeoFeature.mk (some "A") Geometry.other].get ⟨i, hi⟩).geoid = some g →
        (∀ r ∈ [TabRow.mk "B" 5], r.geoid ≠ g) →
        out.get ⟨i, hi2⟩ = ⟨[GeoFeature.mk (some "A") Geometry.other].get ⟨i, hi⟩, 0, none⟩ :=
  claim2_unmatched_gets_zero [⟨"B", 5⟩] [⟨some "A", Geometry.other⟩] (by simp)

/-- C3 (code_bug): on an empty value list the chained bounds assignment
of stream.py line 106 (`min_val, max_val = min(vals), max(vals) if vals
else (0, 1)`, also stream1.py line 201 and stream_app.py line 131) fails
with a `ValueError` from `min([])`, because by operator precedence the
conditional expression guards only `max_val`; the checked variant of
stream2.py and stream3.py defaults the bounds to (0, 1) as the claim
states. -/
theorem claim3_empty_bounds :
    boundsChained [] = none ∧ boundsChecked [] = (0, 1) :=
  ⟨rfl, rfl⟩

/-- C4 (confirmed): for every attached value v, with the bounds computed
over the whole list of attached values, the derived ratio lies in [0, 1],
and whenever the bounds coincide the ratio is 0. -/
theorem claim4_ratio_in_unit_interval (vals : List ℚ) (mn mx v : ℚ)
    (hmn : listMin vals = some mn) (hmx : listMax vals = some mx)
    (hv : v ∈ vals) :
    0 ≤ ratioVal mn mx v ∧ ratioVal mn mx v ≤ 1 ∧
      (mn = mx → ratioVal mn mx v = 0) := by
  have h1 := listMin_le_mem vals mn hmn v hv
  have h2 := listMax_mem_le vals mx hmx v hv
  obtain ⟨ha, hb⟩ := ratioVal_mem_unit h1 h2
  refine ⟨ha, hb, fun he => ?_⟩
  simp [ratioVal, he]

/-- C4 (witness): the theorem applied to the value list [2, 7] at the
member 7. -/
theorem claim4_witness :
    0 ≤ ratioVal 2 7 7 ∧ ratioVal 2 7 7 ≤ 1 ∧
      ((2 : ℚ) = 7 → ratioVal 2 7 7 = 0) :=
  claim4_ratio_in_unit_interval [2, 7] 2 7 7 rfl rfl (by decide)

/-- C5 (confirmed): for every attached value, with the bounds computed
over the whole list of attached values, both color-scale variants return
an RGB triple whose three channels are integers in [0, 255]. -/
theorem claim5_rgb_channels_in_range (vals : List ℚ) (mn mx v : ℚ)
    (hmn : listMin vals = some mn) (hmx : listMax vals = some mx)
    (hv : v ∈ vals) :
    channelsInRange (colorScaleRG mn mx v) ∧
      channelsInRange (colorScaleGRB mn mx v) := by
  have h1 := listMin_le_mem vals mn hmn v hv
  have h2 := listMax_mem_le vals mx hmx v hv
  obtain ⟨ha, hb⟩ := ratioVal_mem_unit h1 h2
  have hr := pyint_range (q := 255 * ratioVal mn mx v) (by linarith) (by linarith)
  have hs := pyint_range (q := 255 * (1 - ratioVal mn mx v)) (by linarith) (by linarith)
  exact ⟨⟨hr, hs, by norm_num [colorScaleRG]⟩, ⟨hs, hr, hs⟩⟩

/-- C5 (witness): the theorem applied to the value list [2, 7] at the
member 7. -/
theorem claim5_witness :
    channelsInRange (colorScaleRG 2 7 7) ∧
      channelsInRange (colorScaleGRB 2 7 7) :=
  claim5_rgb_channels_in_range [2, 7] 2 7 7 rfl rfl (by decide)

/-- C6 (counterexample): in the stream.py variant of `color_scale` no
channel is held constant — between the inputs 0 and 1 (with bounds 0 and 1)
all three channels change — refuting the claim that in every variant
exactly two channels vary while the third is constant. -/
theorem claim6_counterexample :
    (colorScaleGRB 0 1 0).1 ≠ (colorScaleGRB 0 1 1).1 ∧
    (colorScaleGRB 0 1 0).2.1 ≠ (colorScaleGRB 0 1 1).2.1 ∧
    (colorScaleGRB 0 1 0).2.2 ≠ (colorScaleGRB 0 1 1).2.2 := by
  norm_num [colorScaleGRB, ratioVal, pyint]

/-- C6 (amended): in the stream1.py, stream2.py, stream3.py and
stream_app.py variants of `color_scale` the blue channel is held
constant at 0 for all inputs while the red and green channels vary
monotonically with the ratio in opposite directions (red non-decreasing,
green non-increasing); the stream.py variant instead varies all three
channels. -/
theorem claim6_two_varying_one_constant :
    (∀ mn mx v : ℚ, (colorScaleRG mn mx v).2.2 = 0) ∧
    (∀ mn mx v w : ℚ, ratioVal mn mx v ≤ ratioVal mn mx w →
      (colorScaleRG mn mx v).1 ≤ (colorScaleRG mn mx w).1 ∧
      (colorScaleRG mn mx w).2.1 ≤ (colorScaleRG mn mx v).2.1) := by
  refine ⟨fun mn mx v => rfl, fun mn mx v w h => ?_⟩
  exact ⟨pyint_mono (by linarith), pyint_mono (by linarith)⟩

/-- C6 (witness): the monotonicity part applied at bounds 0, 1 to the
values 0 and 1, whose ratios are 0 and 1. -/
theorem claim6_witness :
    (colorScaleRG 0 1 (0 : ℚ)).1 ≤ (colorScaleRG 0 1 1).1 ∧
      (colorScaleRG 0 1 1).2.1 ≤ (colorScaleRG 0 1 (0 : ℚ)).2.1 :=
  claim6_two_varying_one_constant.2 0 1 0 1 (by norm_num [ratioVal])

/-- C7 (confirmed): the color stage is idempotent — it reads only the
attached value of each feature, which it never modifies, and overwrites
the fill color, so a second run recomputes the same bounds and colors
and produces the same output. -/
theorem claim7_color_stage_idempotent (feats : List JoinedFeature) :
    colorStage (colorStage feats) = colorStage feats := by
  have hv : List.map (fun f : JoinedFeature => f.value) (colorStage feats) =
      List.map (fun f : JoinedFeature => f.value) feats := by
    rw [colorStage_eq feats, List.map_map]
    rfl
  rw [colorStage_eq (colorStage feats), hv, colorStage_eq feats,
    List.map_map]
  rfl

/-- C8 (confirmed): whenever the coordinate collection succeeds, the
centroid is the arithmetic mean of all collected longitude/latitude
pairs, and the fixed fallback coordinate (-71.5, 41.7) whenever no
coordinates were collected — in particular for an empty feature
collection. -/
theorem claim8_centroid_mean_or_fallback (feats : List GeoFeature)
    (cs : List Coord) (h : collectCoords feats = some cs) :
    centroid feats =
      some (if cs.isEmpty then ((-71.5 : ℚ), (41.7 : ℚ))
        else ((cs.map Prod.fst).sum / (cs.length : ℚ),
          (cs.map Prod.snd).sum / (cs.length : ℚ))) := by
  cases feats with
  | nil =>
    have hcs : cs = [] := by
      simpa [collectCoords] using h.symm
    subst hcs
    simp [centroid]
  | cons f fs =>
    simp [centroid, h]
    split <;> rfl

/-- C8 (witness): the theorem applied to a single triangular polygon,
whose centroid evaluates to (1, 1). -/
theorem claim8_witness :
    centroid [⟨some "A", Geometry.polygon [[(0, 0), (2, 0), (1, 3)]]⟩] =
      some (1, 1) := by
  have h := claim8_centroid_mean_or_fallback
    [⟨some "A", Geometry.polygon [[(0, 0), (2, 0), (1, 3)]]⟩]
    [(0, 0), (2, 0), (1, 3)] rfl
  rw [h]
  norm_num

/-- C9 (confirmed): if any geometry feature in the input lacks its
identifier, the join stage fails for the whole invocation (the KeyError
propagates), rather than skipping the feature or defaulting to 0. -/
theorem claim9_missing_identifier_fatal (rows : List TabRow)
    (feats : List GeoFeature) (f : GeoFeature) (hf : f ∈ feats)
    (hmiss : f.geoid = none) :
    joinStage rows feats = none := by
  induction feats with
  | nil => cases hf
  | cons g gs ih =>
    rcases List.mem_cons.mp hf with rfl | hf2
    · have hjf : joinFeature rows f = none := by simp [joinFeature, hmiss]
      cases hjs : joinStage rows gs <;> simp [joinStage, hjf, hjs]
    · have hjs := ih hf2
      cases hjf : joinFeature rows g <;> simp [joinStage, hjf, hjs]

/-- C9 (witness): the theorem applied to a single feature with a missing
identifier. -/
theorem claim9_witness :
    joinStage [] [⟨none, Geometry.other⟩] = none :=
  claim9_missing_identifier_fatal [] [⟨none, Geometry.other⟩]
    ⟨none, Geometry.other⟩ (by simp) rfl

/-- C10 (confirmed): starting from index 0, after any sequence of
Previous/Next clicks the session index stays in [0, n-1] for a
coordinate list of length n ≥ 1, so indexing the list with it never
goes out of bounds. -/
theorem claim10_nav_index_invariant (n : ℕ) (hn : 1 ≤ n)
    (acts : List NavAction) :
    0 ≤ navRun n acts ∧ navRun n acts < (n : ℤ) := by
  have h0 : (0 : ℤ) < (n : ℤ) := by exact_mod_cast hn
  exact navRun_bounds_aux n acts 0 le_rfl h0

/-- C10 (witness): the invariant applied to a three-element coordinate
list and the click sequence Next, Next, Previous. -/
theorem claim10_witness :
    0 ≤ navRun 3 [NavAction.next, NavAction.next, NavAction.prev] ∧
      navRun 3 [NavAction.next, NavAction.next, NavAction.prev] < ((3 : ℕ) : ℤ) :=
  claim10_nav_index_invariant 3 (by norm_num)
    [NavAction.next, NavAction.next, NavAction.prev]

end StreamlitGeo
